import Mathlib

/-!
Shallow embedding of the authentication / RBAC core of the web application.

The relational store is modelled as explicit lists of rows; every database
function from `src/database` (users, roles, permissions, user_roles,
role_permissions) is translated into a pure Lean function that takes the
database state and returns the new state together with the value the
TypeScript function resolves to.  Timestamps are natural numbers supplied
explicitly (`now`), fresh primary keys are supplied explicitly (`freshId`),
and the external bcrypt library is modelled as an injective tagged encoding
with the matching comparison.
-/

namespace Webapp

/-- A row of the `users` table (interface `User` in
`src/database/auth/users.ts`).  `created_at` carries no behaviour in the
functions under study and is omitted; `updated_at` is kept because several
statements bump it. -/
structure User where
  id : Nat
  email : String
  name : Option String
  image : Option String
  google_id : Option String
  password_hash : Option String
  email_verified : Bool
  verification_token : Option String
  verification_token_expires : Option Nat
  updated_at : Nat
deriving Repr, DecidableEq

/-- A row of the `roles` table (interface `Role` in
`src/database/rbac/roles.ts`); `description`/`created_at` carry no
behaviour. -/
structure Role where
  id : Nat
  name : String
deriving Repr, DecidableEq

/-- A row of the `permissions` table (interface `Permission`). -/
structure Permission where
  id : Nat
  name : String
  resource : String
  action : String
deriving Repr, DecidableEq

/-- The relational state: one list of rows per table.  `role_permissions`
holds `(role_id, permission_id)` pairs, `user_roles` holds
`(user_id, role_id)` pairs, matching the composite-key association tables. -/
structure DB where
  users : List User
  roles : List Role
  permissions : List Permission
  role_permissions : List (Nat × Nat)
  user_roles : List (Nat × Nat)
deriving Repr, DecidableEq

/-- JavaScript `x || null` applied to an optional string: `undefined` and the
empty string both coerce to `null`. -/
def jsOrNull : Option String → Option String
  | some s => if s == "" then none else some s
  | none => none

/-- SQL `COALESCE(new, old)` for nullable text columns. -/
def coalesce (newVal oldVal : Option String) : Option String :=
  match newVal with
  | some v => some v
  | none => oldVal

/-- Model of the external bcrypt library's `hash`: an injective tagged
encoding standing in for the salted hash. -/
def bcryptHash (password : String) : String :=
  "bcrypt$" ++ password

/-- Model of the external bcrypt library's `compare`: true exactly when the
hash was produced from the candidate. -/
def bcryptCompare (candidate hash : String) : Bool :=
  hash == bcryptHash candidate

/-- `SELECT * FROM roles WHERE name = $1`, first row or null
(`getRoleByName` in `src/database/rbac/roles.ts`). -/
def getRoleByName (db : DB) (name : String) : Option Role :=
  db.roles.find? (fun r => r.name == name)

/-- `SELECT * FROM permissions WHERE name = $1`, first row or null
(`getPermissionByName` in the permissions module). -/
def getPermissionByName (db : DB) (name : String) : Option Permission :=
  db.permissions.find? (fun p => p.name == name)

/-- `SELECT * FROM users WHERE email = $1`, first row or null
(`getUserByEmail` in `src/database/auth/users.ts`). -/
def getUserByEmail (db : DB) (email : String) : Option User :=
  db.users.find? (fun u => u.email == email)

/-- `SELECT * FROM users WHERE id = $1`, first row or null (`getUserById`). -/
def getUserById (db : DB) (id : Nat) : Option User :=
  db.users.find? (fun u => u.id == id)

/-- `assignRoleToUser` (`src/database/rbac/userRoles.ts`): resolves the role
name via the catalog, returns `false` if it is unknown, otherwise
`INSERT INTO user_roles ... ON CONFLICT (user_id, role_id) DO NOTHING` and
returns whether `rowCount > 0`, i.e. whether a new row was inserted. -/
def assignRoleToUser (db : DB) (userId : Nat) (roleName : String) : DB × Bool :=
  match getRoleByName db roleName with
  | none => (db, false)
  | some role =>
    if db.user_roles.any (fun ur => ur.1 == userId && ur.2 == role.id) then
      (db, false)
    else
      ({ db with user_roles := db.user_roles ++ [(userId, role.id)] }, true)

/-- `removeRoleFromUser`: resolves the role name, returns `false` if unknown,
otherwise `DELETE FROM user_roles WHERE user_id = $1 AND role_id = $2` and
returns whether `rowCount > 0`, i.e. whether a row was removed. -/
def removeRoleFromUser (db : DB) (userId : Nat) (roleName : String) : DB × Bool :=
  match getRoleByName db roleName with
  | none => (db, false)
  | some role =>
    let remaining := db.user_roles.filter (fun ur => !(ur.1 == userId && ur.2 == role.id))
    ({ db with user_roles := remaining }, decide (remaining.length < db.user_roles.length))

/-- `getUserRoles`: `SELECT r.name FROM roles r INNER JOIN user_roles ur ON
r.id = ur.role_id WHERE ur.user_id = $1`, one row per joined pair. -/
def getUserRoles (db : DB) (userId : Nat) : List String :=
  db.roles.flatMap (fun r =>
    (db.user_roles.filter (fun ur => ur.1 == userId && ur.2 == r.id)).map (fun _ => r.name))

/-- `hasPermission` (`src/database/rbac/rbac.ts`): resolve the permission
name via the catalog, returning `false` when unknown; otherwise
`SELECT COUNT(*) FROM user_roles ur INNER JOIN role_permissions rp ON
ur.role_id = rp.role_id WHERE ur.user_id = $1 AND rp.permission_id = $2`
and return whether the count is positive. -/
def hasPermission (db : DB) (userId : Nat) (permissionName : String) : Bool :=
  match getPermissionByName db permissionName with
  | none => false
  | some permission =>
    let joined := (db.user_roles.filter (fun ur => ur.1 == userId)).flatMap
      (fun ur => db.role_permissions.filter
        (fun rp => rp.1 == ur.2 && rp.2 == permission.id))
    decide (0 < joined.length)

/-- `getUserPermissions`: `SELECT DISTINCT p.name FROM permissions p INNER
JOIN role_permissions rp ON p.id = rp.permission_id INNER JOIN user_roles ur
ON rp.role_id = ur.role_id WHERE ur.user_id = $1 ORDER BY p.name` — the
deduplicated, lexicographically sorted names of permissions reachable
through the user's roles. -/
def getUserPermissions (db : DB) (userId : Nat) : List String :=
  let joined := db.permissions.filter (fun p =>
    db.role_permissions.any (fun rp => rp.2 == p.id &&
      db.user_roles.any (fun ur => ur.1 == userId && ur.2 == rp.1)))
  ((joined.map Permission.name).dedup).insertionSort (· ≤ ·)

/-- `createUserWithPassword` (`src/database/auth/users.ts`): hash the
password, draw a verification token with a 24-hour expiry, `INSERT` the user
row (the unique-email constraint makes the insert fail — modelled as `none`
— when the email already exists), then `assignRoleToUser(newUser.id,
ROLES.OWNER)` whose boolean result is discarded, and return the inserted
row. -/
def createUserWithPassword (db : DB) (now freshId : Nat) (token : String)
    (email password : String) (name : Option String) : Option (DB × User) :=
  if db.users.any (fun u => u.email == email) then
    none
  else
    let newUser : User :=
      { id := freshId, email := email, name := jsOrNull name, image := none,
        google_id := none, password_hash := some (bcryptHash password),
        email_verified := false, verification_token := some token,
        verification_token_expires := some (now + 24), updated_at := now }
    let db1 : DB := { db with users := db.users ++ [newUser] }
    let db2 := (assignRoleToUser db1 newUser.id "owner").1
    some (db2, newUser)

/-- The `SET` clause of `createOrUpdateUser`'s `ON CONFLICT (email) DO
UPDATE`: `name = COALESCE(EXCLUDED.name, users.name)`, likewise for `image`
and `google_id`, and `updated_at = CURRENT_TIMESTAMP`. -/
def upsertSet (now : Nat) (n i g : Option String) (u : User) : User :=
  { u with
      name := coalesce n u.name,
      image := coalesce i u.image,
      google_id := coalesce g u.google_id,
      updated_at := now }

/-- `createOrUpdateUser`: check `getUserByEmail` first (`isNewUser`), then
`INSERT ... ON CONFLICT (email) DO UPDATE` with coalesce-to-existing
semantics for `name`, `image` and `google_id`; when the user is new, assign
the owner role (result discarded) after the insert.  Returns the returned
row. -/
def createOrUpdateUser (db : DB) (now freshId : Nat) (email : String)
    (name image googleId : Option String) : DB × User :=
  let n := jsOrNull name
  let i := jsOrNull image
  let g := jsOrNull googleId
  match getUserByEmail db email with
  | some u0 =>
    let newUsers := db.users.map
      (fun u => if u.email == email then upsertSet now n i g u else u)
    let db1 : DB := { db with users := newUsers }
    (db1, upsertSet now n i g u0)
  | none =>
    let newUser : User :=
      { id := freshId, email := email, name := n, image := i, google_id := g,
        password_hash := none, email_verified := false,
        verification_token := none, verification_token_expires := none,
        updated_at := now }
    let db1 : DB := { db with users := db.users ++ [newUser] }
    let db2 := (assignRoleToUser db1 newUser.id "owner").1
    (db2, newUser)

/-- The `WHERE` clause of `verifyUserEmail`: `verification_token = $1 AND
verification_token_expires > NOW()` (a null token or null expiry matches
nothing). -/
def tokenMatches (now : Nat) (token : String) (u : User) : Bool :=
  u.verification_token == some token &&
    (match u.verification_token_expires with
     | some e => decide (now < e)
     | none => false)

/-- The `SET` clause of `verifyUserEmail`: `email_verified = true`, token and
expiry cleared, `updated_at` bumped. -/
def verifySet (now : Nat) (u : User) : User :=
  { u with
      email_verified := true,
      verification_token := none,
      verification_token_expires := none,
      updated_at := now }

/-- `verifyUserEmail`: `UPDATE users SET ... WHERE verification_token = $1
AND verification_token_expires > NOW() RETURNING *`; resolves to the first
updated row or null. -/
def verifyUserEmail (db : DB) (now : Nat) (token : String) : DB × Option User :=
  let newUsers := db.users.map
    (fun u => if tokenMatches now token u then verifySet now u else u)
  let db1 : DB := { db with users := newUsers }
  (db1, ((db.users.filter (tokenMatches now token)).map (verifySet now)).head?)

/-- The `SET` clause of `mergeAccountWithGoogle`: `google_id = $1` set
unconditionally, `name = COALESCE($2, name)`, `image = COALESCE($3, image)`,
`updated_at` bumped; `password_hash` and `email_verified` are not in the
clause. -/
def mergeSet (now : Nat) (googleId : String) (n i : Option String) (u : User) : User :=
  { u with
      google_id := some googleId,
      name := coalesce n u.name,
      image := coalesce i u.image,
      updated_at := now }

/-- `mergeAccountWithGoogle`: `UPDATE users SET ... WHERE email = $4
RETURNING *` with `name || null` and `image || null` applied to the
arguments; resolves to the first updated row (undefined — `none` — when no
row has that email). -/
def mergeAccountWithGoogle (db : DB) (now : Nat) (email googleId : String)
    (name image : Option String) : DB × Option User :=
  let n := jsOrNull name
  let i := jsOrNull image
  let newUsers := db.users.map
    (fun u => if u.email == email then mergeSet now googleId n i u else u)
  let db1 : DB := { db with users := newUsers }
  (db1, ((db.users.filter (fun u => u.email == email)).map (mergeSet now googleId n i)).head?)

/-- `verifyPassword`: look the user up by email; resolve to null when the
user is missing or has no password hash; otherwise bcrypt-compare and
resolve to the user on success, null on mismatch. -/
def verifyPassword (db : DB) (email password : String) : Option User :=
  match getUserByEmail db email with
  | none => none
  | some user =>
    match user.password_hash with
    | none => none
    | some hash => if bcryptCompare password hash then some user else none

/-- Observable outcome of the credentials `authorize` callback in
`src/app/api/auth/[...nextauth]/route.ts`: a user object, a `null` return
(NextAuth turns it into the generic invalid-credentials failure), or a
thrown `Error` with its message. -/
inductive AuthOutcome where
  | success (id : Nat) (email : String) (name image : Option String)
  | reject
  | thrown (message : String)
deriving Repr, DecidableEq

/-- The credentials `authorize` callback: missing or empty email/password
(JavaScript falsiness) returns null; then `verifyPassword`; a null user
returns null; an unverified user throws `Error("Email no verificado")`;
otherwise the session user object is returned. -/
def authorize (db : DB) (email password : Option String) : AuthOutcome :=
  match email, password with
  | some e, some p =>
    if e == "" || p == "" then AuthOutcome.reject
    else
      match verifyPassword db e p with
      | none => AuthOutcome.reject
      | some user =>
        if user.email_verified then
          AuthOutcome.success user.id user.email user.name user.image
        else
          AuthOutcome.thrown "Email no verificado"
  | _, _ => AuthOutcome.reject

/-! Concrete database states used to evaluate the theorems on explicit
inputs. -/

/-- The empty database: no users, no catalog rows, no associations. -/
def dbEmpty : DB :=
  { users := [], roles := [], permissions := [], role_permissions := [],
    user_roles := [] }

/-- A catalog holding only the `guest` role, so that `admin` is an unknown
role name. -/
def dbGuestOnly : DB :=
  { users := [], roles := [{ id := 1, name := "guest" }], permissions := [],
    role_permissions := [], user_roles := [] }

/-- An unverified password user `a@x.com` with a pending verification
token. -/
def userUnverified : User where
  id := 1
  email := "a@x.com"
  name := none
  image := none
  google_id := none
  password_hash := some (bcryptHash "longenough1")
  email_verified := false
  verification_token := some "tok"
  verification_token_expires := some 24
  updated_at := 0

/-- One unverified password user `a@x.com`. -/
def dbUnverifiedUser : DB :=
  { users := [userUnverified], roles := [], permissions := [],
    role_permissions := [], user_roles := [] }

/-- A verified password user `b@x.com`. -/
def userVerified : User where
  id := 2
  email := "b@x.com"
  name := none
  image := none
  google_id := none
  password_hash := some (bcryptHash "hunter2longer")
  email_verified := true
  verification_token := none
  verification_token_expires := none
  updated_at := 0

/-- One verified password user `b@x.com`, used to compare a wrong-password
attempt against a nonexistent-email attempt. -/
def dbVerifiedUser : DB :=
  { users := [userVerified], roles := [], permissions := [],
    role_permissions := [], user_roles := [] }

/-- A Google-only user: `c@x.com` has a Google subject id but a null
password hash. -/
def userGoogleOnly : User where
  id := 3
  email := "c@x.com"
  name := some "C"
  image := none
  google_id := some "google-sub-3"
  password_hash := none
  email_verified := false
  verification_token := none
  verification_token_expires := none
  updated_at := 0

/-- A database holding only the Google-only user. -/
def dbGoogleOnlyUser : DB :=
  { users := [userGoogleOnly], roles := [], permissions := [],
    role_permissions := [], user_roles := [] }

/-- A catalog holding the default `owner` role and nothing else. -/
def dbOwnerRole : DB :=
  { users := [], roles := [{ id := 1, name := "owner" }], permissions := [],
    role_permissions := [], user_roles := [] }

/-- The row `createUserWithPassword` inserts for `a@x.com` with fresh id 7
at time 0. -/
def userCreated7 : User where
  id := 7
  email := "a@x.com"
  name := none
  image := none
  google_id := none
  password_hash := some (bcryptHash "longenough1")
  email_verified := false
  verification_token := some "tok"
  verification_token_expires := some 24
  updated_at := 0

/-- The state after creating `a@x.com` in `dbOwnerRole`: the user row plus
the owner-role assignment. -/
def dbOwnerAfter : DB :=
  { users := [userCreated7], roles := [{ id := 1, name := "owner" }],
    permissions := [], role_permissions := [], user_roles := [(7, 1)] }

/-- The catalog row for `calendar:read`. -/
def permCalendarRead : Permission where
  id := 1
  name := "calendar:read"
  resource := "calendar"
  action := "read"

/-- A small RBAC state: permission `calendar:read` attached to role `guest`,
which user 7 holds. -/
def dbRbac : DB :=
  { users := [],
    roles := [{ id := 1, name := "guest" }],
    permissions := [permCalendarRead],
    role_permissions := [(1, 1)],
    user_roles := [(7, 1)] }

/-! Theorems.  Each claim of the specification gets one theorem; shared
list-level facts are factored into helper lemmas first. -/

/-- Membership in `getUserRoles` follows from a role row plus an assignment
row. -/
theorem mem_getUserRoles (db : DB) (userId : Nat) (role : Role)
    (hr : role ∈ db.roles) (hur : (userId, role.id) ∈ db.user_roles) :
    role.name ∈ getUserRoles db userId := by
  unfold getUserRoles
  rw [List.mem_flatMap]
  refine ⟨role, hr, ?_⟩
  rw [List.mem_map]
  refine ⟨(userId, role.id), ?_, rfl⟩
  rw [List.mem_filter]
  exact ⟨hur, by simp⟩

/-- After `assignRoleToUser` resolves the role name to a catalog row, the
role name is among the user's roles, whether the assignment row was freshly
inserted or already present. -/
theorem assignRole_mem_getUserRoles (db : DB) (userId : Nat) (roleName : String)
    (role : Role) (h : getRoleByName db roleName = some role) :
    roleName ∈ getUserRoles (assignRoleToUser db userId roleName).1 userId := by
  have hfind : db.roles.find? (fun r => r.name == roleName) = some role := h
  have hmem : role ∈ db.roles := List.mem_of_find?_eq_some hfind
  have hname : role.name = roleName := by
    have := List.find?_some hfind
    exact beq_iff_eq.mp this
  simp only [assignRoleToUser, h]
  by_cases hin : db.user_roles.any (fun ur => ur.1 == userId && ur.2 == role.id) = true
  · rw [if_pos hin]
    obtain ⟨ur, hur, hp⟩ := List.any_eq_true.mp hin
    simp only [Bool.and_eq_true] at hp
    obtain ⟨h1, h2⟩ := hp
    have hpair : (userId, role.id) ∈ db.user_roles := by
      have : ur = (userId, role.id) := by
        cases ur
        simp only [Prod.mk.injEq]
        exact ⟨(beq_iff_eq.mp h1).symm ▸ rfl, (beq_iff_eq.mp h2).symm ▸ rfl⟩
      rwa [this] at hur
    exact hname ▸ mem_getUserRoles db userId role hmem hpair
  · rw [if_neg hin]
    have hpair : (userId, role.id) ∈ db.user_roles ++ [(userId, role.id)] := by
      simp
    exact hname ▸ mem_getUserRoles
      { db with user_roles := db.user_roles ++ [(userId, role.id)] }
      userId role hmem hpair

/-- C3: a permission name with no row in the catalog makes `hasPermission`
return `false` for every user id, by the early-return branch, not by an
error: the embedded function is total, and only the (unmodelled)
storage-layer failure path of the original could throw. -/
theorem C3_unknown_permission_fails_closed (db : DB) (userId : Nat)
    (name : String) (h : getPermissionByName db name = none) :
    hasPermission db userId name = false := by
  unfold hasPermission
  rw [h]

/-- Witness for C3: in the empty catalog, `calendar:write` is unknown and
`hasPermission` returns `false`. -/
theorem C3_unknown_permission_fails_closed_witness :
    getPermissionByName dbEmpty "calendar:write" = none ∧
    hasPermission dbEmpty 1 "calendar:write" = false :=
  ⟨rfl, C3_unknown_permission_fails_closed dbEmpty 1 "calendar:write" rfl⟩

/-- C8, counterexample: with a catalog holding only `guest`, assigning the
unknown role `admin` to user 1 returns the ordinary value `false` with the
database unchanged — `assignRoleToUser` has no error path for an unknown
role name, contradicting the claimed loud NotFound failure. -/
theorem C8_counterexample :
    assignRoleToUser dbGuestOnly 1 "admin" = (dbGuestOnly, false) := rfl

/-- C8, amended: when the role name resolves to no catalog row,
`assignRoleToUser` returns `false` — the same value an already-held role
produces — and performs no mutation; it does not throw. -/
theorem C8_amended_unknown_role_returns_false (db : DB) (userId : Nat)
    (roleName : String) (h : getRoleByName db roleName = none) :
    assignRoleToUser db userId roleName = (db, false) := by
  unfold assignRoleToUser
  rw [h]

/-- Witness for the amended C8 at the concrete catalog without `admin`. -/
theorem C8_amended_unknown_role_returns_false_witness :
    getRoleByName dbGuestOnly "admin" = none ∧
    assignRoleToUser dbGuestOnly 2 "admin" = (dbGuestOnly, false) :=
  ⟨rfl, C8_amended_unknown_role_returns_false dbGuestOnly 2 "admin" rfl⟩

/-- C10: a user whose `password_hash` is null can never pass the credentials
path: `verifyPassword` resolves to null for any candidate password, so
`authorize` returns the null rejection and the unverified-email error branch
is unreachable; the embedded functions are total, so no crash occurs on the
missing hash. -/
theorem C10_null_hash_rejects (db : DB) (e p : String) (u : User)
    (hu : getUserByEmail db e = some u) (hph : u.password_hash = none) :
    verifyPassword db e p = none ∧
    authorize db (some e) (some p) = AuthOutcome.reject := by
  have hvp : verifyPassword db e p = none := by
    simp only [verifyPassword, hu, hph]
  refine ⟨hvp, ?_⟩
  cases h : (e == "" || p == "") <;> simp [authorize, hvp, h]

/-- Witness for C10: the Google-only user rejects any password attempt. -/
theorem C10_null_hash_rejects_witness :
    getUserByEmail dbGoogleOnlyUser "c@x.com" = some userGoogleOnly ∧
    verifyPassword dbGoogleOnlyUser "c@x.com" "anypassword" = none ∧
    authorize dbGoogleOnlyUser (some "c@x.com") (some "anypassword") =
      AuthOutcome.reject :=
  ⟨rfl,
    C10_null_hash_rejects dbGoogleOnlyUser "c@x.com" "anypassword"
      userGoogleOnly rfl rfl⟩

/-- C5: password correctness is decided before the verified flag is
consulted — whenever `verifyPassword` resolves to null (wrong password,
including on an unverified account), `authorize` returns the generic
rejection, and the thrown email-not-verified error occurs only when
`verifyPassword` confirmed the password and the user's `email_verified` is
false. -/
theorem C5_password_checked_before_verified (db : DB) (e p : String) :
    (verifyPassword db e p = none →
      authorize db (some e) (some p) = AuthOutcome.reject) ∧
    (∀ m, authorize db (some e) (some p) = AuthOutcome.thrown m →
      m = "Email no verificado" ∧
        ∃ u, verifyPassword db e p = some u ∧ u.email_verified = false) := by
  constructor
  · intro hvp
    cases h : (e == "" || p == "") <;> simp [authorize, hvp, h]
  · intro m hm
    by_cases h : (e == "" || p == "") = true
    · simp [authorize, h] at hm
    · cases hvp : verifyPassword db e p with
      | none => simp [authorize, h, hvp] at hm
      | some u =>
        cases hev : u.email_verified with
        | false =>
          simp [authorize, h, hvp, hev] at hm
          exact ⟨hm.symm, u, rfl, hev⟩
        | true => simp [authorize, h, hvp, hev] at hm

/-- Witness for C5: a wrong password on the unverified account `a@x.com`
yields the rejection, not the thrown verification error. -/
theorem C5_password_checked_before_verified_witness :
    verifyPassword dbUnverifiedUser "a@x.com" "wrongpassword" = none ∧
    authorize dbUnverifiedUser (some "a@x.com") (some "wrongpassword") =
      AuthOutcome.reject :=
  ⟨rfl,
    (C5_password_checked_before_verified dbUnverifiedUser "a@x.com"
      "wrongpassword").1 rfl⟩

/-- C6: a login attempt with a nonexistent email and a login attempt with an
existing email plus a wrong password both produce the identical rejection
value of `authorize` (NextAuth maps a null return to the single
invalid-credentials failure), so the outcome does not reveal whether the
email exists. -/
theorem C6_enumeration_resistance (db : DB) (e1 p1 e2 p2 : String)
    (h1 : getUserByEmail db e1 = none)
    (h2 : ∃ u, getUserByEmail db e2 = some u)
    (h3 : verifyPassword db e2 p2 = none) :
    authorize db (some e1) (some p1) = AuthOutcome.reject ∧
    authorize db (some e2) (some p2) = AuthOutcome.reject ∧
    authorize db (some e1) (some p1) = authorize db (some e2) (some p2) := by
  have hv1 : verifyPassword db e1 p1 = none := by
    simp only [verifyPassword, h1]
  have a1 : authorize db (some e1) (some p1) = AuthOutcome.reject := by
    cases h : (e1 == "" || p1 == "") <;> simp [authorize, hv1, h]
  have a2 : authorize db (some e2) (some p2) = AuthOutcome.reject := by
    cases h : (e2 == "" || p2 == "") <;> simp [authorize, h3, h]
  exact ⟨a1, a2, a1.trans a2.symm⟩

/-- Witness for C6: `nobody@x.com` does not exist, `b@x.com` exists with a
different password; both attempts are rejected identically. -/
theorem C6_enumeration_resistance_witness :
    authorize dbVerifiedUser (some "nobody@x.com") (some "hunter2longer") =
      AuthOutcome.reject ∧
    authorize dbVerifiedUser (some "b@x.com") (some "wrongpassword") =
      AuthOutcome.reject :=
  ⟨(C6_enumeration_resistance dbVerifiedUser "nobody@x.com" "hunter2longer"
      "b@x.com" "wrongpassword" rfl ⟨userVerified, rfl⟩ rfl).1,
    (C6_enumeration_resistance dbVerifiedUser "nobody@x.com" "hunter2longer"
      "b@x.com" "wrongpassword" rfl ⟨userVerified, rfl⟩ rfl).2.1⟩

/-- C1, counterexample: in a database whose catalog lacks the `owner` role,
`createUserWithPassword` still completes successfully — the discarded
`false` result of `assignRoleToUser` does not fail the operation and no
rollback occurs — leaving a user row behind whose role list is empty.  This
contradicts the claim that a failed default-role assignment fails account
creation as a whole. -/
theorem C1_counterexample :
    (createUserWithPassword dbEmpty 0 1 "tok" "a@x.com" "longenough1"
        none).map
      (fun r => (getUserRoles r.1 r.2.id, (getUserById r.1 r.2.id).isSome))
      = some ([], true) := rfl

/-- C1, amended: when the default role `owner` exists in the catalog, every
successfully completed `createUserWithPassword` and every
`createOrUpdateUser` on a new email leaves the new user holding the `owner`
role, so its role list is non-empty; but when the role name resolves to no
catalog row the assignment silently returns `false`, creation still
completes, and the user row remains with zero roles (shown by the
counterexample). -/
theorem C1_amended_default_role_assigned (db : DB) (now freshId : Nat)
    (token email password : String) (name image googleId : Option String)
    (role : Role) (hrole : getRoleByName db "owner" = some role) :
    (∀ db' u, createUserWithPassword db now freshId token email password name
        = some (db', u) →
      "owner" ∈ getUserRoles db' u.id ∧ getUserRoles db' u.id ≠ []) ∧
    (getUserByEmail db email = none →
      "owner" ∈ getUserRoles
          (createOrUpdateUser db now freshId email name image googleId).1
          (createOrUpdateUser db now freshId email name image googleId).2.id ∧
        getUserRoles
          (createOrUpdateUser db now freshId email name image googleId).1
          (createOrUpdateUser db now freshId email name image googleId).2.id
          ≠ []) := by
  constructor
  · intro db' u hsucc
    cases hex : db.users.any (fun v => v.email == email) with
    | true => simp [createUserWithPassword, hex] at hsucc
    | false =>
      simp only [createUserWithPassword, hex, Bool.false_eq_true, if_false,
        Option.some.injEq, Prod.mk.injEq] at hsucc
      obtain ⟨hdb, hu⟩ := hsucc
      subst hdb
      subst hu
      exact ⟨assignRole_mem_getUserRoles _ _ _ role hrole,
        List.ne_nil_of_mem (assignRole_mem_getUserRoles _ _ _ role hrole)⟩
  · intro hnew
    simp only [createOrUpdateUser, hnew]
    exact ⟨assignRole_mem_getUserRoles _ _ _ role hrole,
      List.ne_nil_of_mem (assignRole_mem_getUserRoles _ _ _ role hrole)⟩

/-- Witness for the amended C1: creating `a@x.com` in a catalog holding the
`owner` role succeeds and leaves the user with the `owner` role. -/
theorem C1_amended_default_role_assigned_witness :
    createUserWithPassword dbOwnerRole 0 7 "tok" "a@x.com" "longenough1" none
        = some (dbOwnerAfter, userCreated7) ∧
    ("owner" ∈ getUserRoles dbOwnerAfter userCreated7.id ∧
      getUserRoles dbOwnerAfter userCreated7.id ≠ []) :=
  ⟨rfl,
    (C1_amended_default_role_assigned dbOwnerRole 0 7 "tok" "a@x.com"
      "longenough1" none none none { id := 1, name := "owner" } rfl).1
      dbOwnerAfter userCreated7 rfl⟩

/-- A second `assignRoleToUser` of the same role hits the conflict branch:
the state is unchanged and the reported insertion flag is `false`. -/
theorem assignRole_second_noop (db : DB) (u : Nat) (r : String) (role : Role)
    (hrole : getRoleByName db r = some role) :
    assignRoleToUser (assignRoleToUser db u r).1 u r
      = ((assignRoleToUser db u r).1, false) := by
  by_cases hin : db.user_roles.any (fun ur => ur.1 == u && ur.2 == role.id) = true
  · have h1 : assignRoleToUser db u r = (db, false) := by
      simp only [assignRoleToUser, hrole, if_pos hin]
    rw [h1]
    simp only [assignRoleToUser, hrole, if_pos hin]
  · have h1 : assignRoleToUser db u r
        = ({ db with user_roles := db.user_roles ++ [(u, role.id)] }, true) := by
      simp only [assignRoleToUser, hrole, if_neg hin]
    rw [h1]
    have hrole1 : getRoleByName
        { db with user_roles := db.user_roles ++ [(u, role.id)] } r
        = some role := hrole
    have hin1 : ({ db with user_roles := db.user_roles ++ [(u, role.id)] } :
        DB).user_roles.any (fun ur => ur.1 == u && ur.2 == role.id) = true := by
      simp [List.any_append]
    simp only [assignRoleToUser, hrole1, if_pos hin1]

/-- A second `removeRoleFromUser` of the same role deletes nothing: the
state is unchanged and the reported removal flag is `false`. -/
theorem removeRole_second_noop (db : DB) (u : Nat) (r : String) (role : Role)
    (hrole : getRoleByName db r = some role) :
    removeRoleFromUser (removeRoleFromUser db u r).1 u r
      = ((removeRoleFromUser db u r).1, false) := by
  have h1 : removeRoleFromUser db u r
      = ({ db with
             user_roles := db.user_roles.filter
               (fun ur => !(ur.1 == u && ur.2 == role.id)) },
         decide ((db.user_roles.filter
             (fun ur => !(ur.1 == u && ur.2 == role.id))).length
           < db.user_roles.length)) := by
    simp only [removeRoleFromUser, hrole]
  rw [h1]
  have hrole1 : getRoleByName
      { db with
          user_roles := db.user_roles.filter
            (fun ur => !(ur.1 == u && ur.2 == role.id)) } r
      = some role := hrole
  simp only [removeRoleFromUser, hrole1]
  rw [List.filter_filter]
  simp [Bool.and_self]

/-- Removing a role the user does not hold leaves the state unchanged and
returns `false` without error. -/
theorem removeRole_not_held (db : DB) (u : Nat) (r : String) (role : Role)
    (hrole : getRoleByName db r = some role)
    (h : (u, role.id) ∉ db.user_roles) :
    removeRoleFromUser db u r = (db, false) := by
  have hf : db.user_roles.filter (fun ur => !(ur.1 == u && ur.2 == role.id))
      = db.user_roles := by
    rw [List.filter_eq_self]
    intro x hx
    simp only [Bool.not_eq_true']
    by_contra hcon
    simp only [Bool.not_eq_false, Bool.and_eq_true, beq_iff_eq] at hcon
    exact h (by
      have : x = (u, role.id) := by
        cases x
        simp only [Prod.mk.injEq]
        exact ⟨hcon.1, hcon.2⟩
      rwa [this] at hx)
  simp only [removeRoleFromUser, hrole, hf]
  simp

/-- C9: with an existing role `r`, assigning twice equals assigning once —
the second call changes nothing and reports no new row — so the role lists
agree; a second removal likewise changes nothing and reports `false`; and
removing a role the user never held is the ordinary `(db, false)` result,
not an error. -/
theorem C9_assign_remove_idempotent (db : DB) (u : Nat) (r : String)
    (role : Role) (hrole : getRoleByName db r = some role) :
    (assignRoleToUser (assignRoleToUser db u r).1 u r
        = ((assignRoleToUser db u r).1, false)) ∧
    (getUserRoles (assignRoleToUser (assignRoleToUser db u r).1 u r).1 u
        = getUserRoles (assignRoleToUser db u r).1 u) ∧
    (removeRoleFromUser (removeRoleFromUser db u r).1 u r
        = ((removeRoleFromUser db u r).1, false)) ∧
    ((u, role.id) ∉ db.user_roles → removeRoleFromUser db u r = (db, false)) := by
  refine ⟨assignRole_second_noop db u r role hrole, ?_,
    removeRole_second_noop db u r role hrole,
    removeRole_not_held db u r role hrole⟩
  rw [assignRole_second_noop db u r role hrole]

/-- Witness for C9 at the concrete one-role catalog: double assignment for
user 5 reports `false` the second time with no state change, and removing
`owner` from user 6 (who never held it) is the plain `(db, false)` result. -/
theorem C9_assign_remove_idempotent_witness :
    (assignRoleToUser (assignRoleToUser dbOwnerRole 5 "owner").1 5 "owner"
        = ((assignRoleToUser dbOwnerRole 5 "owner").1, false)) ∧
    removeRoleFromUser dbOwnerRole 6 "owner" = (dbOwnerRole, false) :=
  ⟨(C9_assign_remove_idempotent dbOwnerRole 5 "owner"
      { id := 1, name := "owner" } rfl).1,
    (C9_assign_remove_idempotent dbOwnerRole 6 "owner"
      { id := 1, name := "owner" } rfl).2.2.2 (List.not_mem_nil _)⟩

/-- A row passing the verify-email `WHERE` clause carries exactly the looked
up token. -/
theorem tokenMatches_token {now : Nat} {t : String} {u : User}
    (h : tokenMatches now t u = true) : u.verification_token = some t := by
  unfold tokenMatches at h
  simp only [Bool.and_eq_true, beq_iff_eq] at h
  exact h.1

/-- When no user row passes the verify-email `WHERE` clause (token unmatched
or expiry passed), `verifyUserEmail` returns null and the state is
unchanged. -/
theorem verifyUserEmail_no_match (db : DB) (now : Nat) (t : String)
    (h : ∀ v ∈ db.users, tokenMatches now t v = false) :
    verifyUserEmail db now t = (db, none) := by
  unfold verifyUserEmail
  have hf : db.users.filter (tokenMatches now t) = [] := by
    rw [List.filter_eq_nil_iff]
    intro a ha
    simp [h a ha]
  have hm : db.users.map
      (fun v => if tokenMatches now t v then verifySet now v else v)
      = db.users := by
    have hcg : ∀ v ∈ db.users,
        (if tokenMatches now t v then verifySet now v else v) = v := by
      intro v hv
      simp [h v hv]
    rw [List.map_congr_left hcg]
    exact List.map_id' db.users
  rw [hf, hm]
  simp

/-- C4: for a user holding the issued token with an unexpired expiry (and
the token identifying no other row), `verifyUserEmail` returns exactly that
user with `email_verified` set and token/expiry cleared, updates only that
row, and a second attempt with the same (now cleared) token returns null —
the route maps a null result to the invalid-or-expired-token failure — with
no state change; in general any attempt matching no row (unmatched token or
passed expiry) returns null with no state change. -/
theorem C4_verify_email_roundtrip (db : DB) (now now2 : Nat) (t : String)
    (u : User) (hu : u ∈ db.users)
    (htok : u.verification_token = some t)
    (hexp : ∃ e, u.verification_token_expires = some e ∧ now < e)
    (huniq : ∀ v ∈ db.users, v.verification_token = some t → v = u) :
    (verifyUserEmail db now t).2 = some (verifySet now u) ∧
    (verifyUserEmail db now t).1.users
      = db.users.map (fun v => if v = u then verifySet now u else v) ∧
    verifyUserEmail (verifyUserEmail db now t).1 now2 t
      = ((verifyUserEmail db now t).1, none) ∧
    (∀ db2 n t2, (∀ v ∈ db2.users, tokenMatches n t2 v = false) →
      verifyUserEmail db2 n t2 = (db2, none)) := by
  have hmatch : tokenMatches now t u = true := by
    obtain ⟨e, he, hlt⟩ := hexp
    unfold tokenMatches
    rw [htok, he]
    simp [hlt]
  have hfmem : u ∈ db.users.filter (tokenMatches now t) :=
    List.mem_filter.mpr ⟨hu, hmatch⟩
  refine ⟨?_, ?_, ?_, ?_⟩
  · show ((db.users.filter (tokenMatches now t)).map (verifySet now)).head?
      = some (verifySet now u)
    cases hh : db.users.filter (tokenMatches now t) with
    | nil => rw [hh] at hfmem; exact absurd hfmem (List.not_mem_nil u)
    | cons w ws =>
      have hw : w ∈ db.users.filter (tokenMatches now t) := by
        rw [hh]
        exact List.mem_cons_self w ws
      have hwmem := List.mem_filter.mp hw
      have hwu : w = u := huniq w hwmem.1 (tokenMatches_token hwmem.2)
      rw [hwu]
      rfl
  · show db.users.map
        (fun v => if tokenMatches now t v then verifySet now v else v)
      = db.users.map (fun v => if v = u then verifySet now u else v)
    apply List.map_congr_left
    intro v hv
    by_cases hm : tokenMatches now t v = true
    · have hvu : v = u := huniq v hv (tokenMatches_token hm)
      rw [if_pos hm, if_pos hvu, hvu]
    · have hvu : ¬(v = u) := by
        intro hvu
        rw [hvu] at hm
        exact hm hmatch
      rw [if_neg hm, if_neg hvu]
  · apply verifyUserEmail_no_match
    intro v hv
    have hv' : v ∈ db.users.map
        (fun w => if tokenMatches now t w then verifySet now w else w) := hv
    obtain ⟨w, hwmem, hweq⟩ := List.mem_map.mp hv'
    by_cases hm : tokenMatches now t w = true
    · rw [if_pos hm] at hweq
      rw [← hweq]
      simp [tokenMatches, verifySet]
    · rw [if_neg hm] at hweq
      rw [← hweq]
      by_contra hcon
      rw [Bool.not_eq_false] at hcon
      have hwu : w = u := huniq w hwmem (tokenMatches_token hcon)
      rw [hwu] at hm
      exact hm hmatch
  · intro db2 n t2 hnone
    exact verifyUserEmail_no_match db2 n t2 hnone

/-- Witness for C4 at the concrete unverified user: verifying with `tok` at
time 5 returns the verified row, and re-verifying at time 6 returns null
with no state change. -/
theorem C4_verify_email_roundtrip_witness :
    (verifyUserEmail dbUnverifiedUser 5 "tok").2
        = some (verifySet 5 userUnverified) ∧
    verifyUserEmail (verifyUserEmail dbUnverifiedUser 5 "tok").1 6 "tok"
        = ((verifyUserEmail dbUnverifiedUser 5 "tok").1, none) :=
  ⟨(C4_verify_email_roundtrip dbUnverifiedUser 5 6 "tok" userUnverified
      (by decide) rfl ⟨24, rfl, by decide⟩ (by decide)).1,
    (C4_verify_email_roundtrip dbUnverifiedUser 5 6 "tok" userUnverified
      (by decide) rfl ⟨24, rfl, by decide⟩ (by decide)).2.2.1⟩

/-- C7: an OAuth merge touches only the rows with the given email.
`mergeAccountWithGoogle` maps every matching row through `mergeSet`, which
leaves `password_hash` and `email_verified` (and the verification token
fields) unchanged, sets the Google subject id, and coalesces `name`/`image`
to the existing values when the provider value is null; every row with a
different email is untouched.  When the email already exists, the
`createOrUpdateUser` upsert takes the conflict branch, whose `upsertSet`
likewise preserves `password_hash`/`email_verified` and coalesces `name`,
`image` and `google_id`. -/
theorem C7_oauth_merge_preserves (db : DB) (now freshId : Nat)
    (email googleId : String) (name image gid : Option String) (u : User)
    (hu : u ∈ db.users) (hemail : u.email = email) :
    ((mergeAccountWithGoogle db now email googleId name image).1.users
        = db.users.map (fun v => if v.email == email
            then mergeSet now googleId (jsOrNull name) (jsOrNull image) v
            else v)) ∧
    (mergeSet now googleId (jsOrNull name) (jsOrNull image) u
        ∈ (mergeAccountWithGoogle db now email googleId name image).1.users) ∧
    ((mergeSet now googleId (jsOrNull name) (jsOrNull image) u).password_hash
        = u.password_hash) ∧
    ((mergeSet now googleId (jsOrNull name) (jsOrNull image) u).email_verified
        = u.email_verified) ∧
    ((mergeSet now googleId (jsOrNull name) (jsOrNull image) u).google_id
        = some googleId) ∧
    (∀ s, jsOrNull name = some s →
      (mergeSet now googleId (jsOrNull name) (jsOrNull image) u).name
        = some s) ∧
    (jsOrNull name = none →
      (mergeSet now googleId (jsOrNull name) (jsOrNull image) u).name
        = u.name) ∧
    (∀ s, jsOrNull image = some s →
      (mergeSet now googleId (jsOrNull name) (jsOrNull image) u).image
        = some s) ∧
    (jsOrNull image = none →
      (mergeSet now googleId (jsOrNull name) (jsOrNull image) u).image
        = u.image) ∧
    (∀ v ∈ db.users, v.email ≠ email →
      v ∈ (mergeAccountWithGoogle db now email googleId name image).1.users) ∧
    ((createOrUpdateUser db now freshId email name image gid).1.users
        = db.users.map (fun v => if v.email == email
            then upsertSet now (jsOrNull name) (jsOrNull image) (jsOrNull gid) v
            else v)) ∧
    ((upsertSet now (jsOrNull name) (jsOrNull image) (jsOrNull gid)
        u).password_hash = u.password_hash) ∧
    ((upsertSet now (jsOrNull name) (jsOrNull image) (jsOrNull gid)
        u).email_verified = u.email_verified) ∧
    (∀ s, jsOrNull gid = some s →
      (upsertSet now (jsOrNull name) (jsOrNull image) (jsOrNull gid)
        u).google_id = some s) ∧
    (jsOrNull gid = none →
      (upsertSet now (jsOrNull name) (jsOrNull image) (jsOrNull gid)
        u).google_id = u.google_id) ∧
    (∀ s, jsOrNull name = some s →
      (upsertSet now (jsOrNull name) (jsOrNull image) (jsOrNull gid) u).name
        = some s) ∧
    (jsOrNull name = none →
      (upsertSet now (jsOrNull name) (jsOrNull image) (jsOrNull gid) u).name
        = u.name) ∧
    (∀ v ∈ db.users, v.email ≠ email →
      v ∈ (createOrUpdateUser db now freshId email name image gid).1.users) := by
  have hbeq : (u.email == email) = true := beq_iff_eq.mpr hemail
  have hfind : getUserByEmail db email ≠ none := by
    intro hnone
    unfold getUserByEmail at hnone
    rw [List.find?_eq_none] at hnone
    exact hnone u hu hbeq
  obtain ⟨u0, hu0⟩ : ∃ u0, getUserByEmail db email = some u0 := by
    cases hfe : getUserByEmail db email with
    | none => exact absurd hfe hfind
    | some u0 => exact ⟨u0, rfl⟩
  have hupsert : (createOrUpdateUser db now freshId email name image gid).1.users
      = db.users.map (fun v => if v.email == email
          then upsertSet now (jsOrNull name) (jsOrNull image) (jsOrNull gid) v
          else v) := by
    simp only [createOrUpdateUser, hu0]
  refine ⟨rfl, ?_, rfl, rfl, rfl, ?_, ?_, ?_, ?_, ?_, hupsert, rfl, rfl,
    ?_, ?_, ?_, ?_, ?_⟩
  · exact List.mem_map.mpr ⟨u, hu, by rw [if_pos hbeq]⟩
  · intro s hs
    simp [mergeSet, hs, coalesce]
  · intro hs
    simp [mergeSet, hs, coalesce]
  · intro s hs
    simp [mergeSet, hs, coalesce]
  · intro hs
    simp [mergeSet, hs, coalesce]
  · intro v hv hne
    refine List.mem_map.mpr ⟨v, hv, ?_⟩
    rw [if_neg (by simp [hne])]
  · intro s hs
    simp [upsertSet, hs, coalesce]
  · intro hs
    simp [upsertSet, hs, coalesce]
  · intro s hs
    simp [upsertSet, hs, coalesce]
  · intro hs
    simp [upsertSet, hs, coalesce]
  · intro v hv hne
    rw [hupsert]
    refine List.mem_map.mpr ⟨v, hv, ?_⟩
    rw [if_neg (by simp [hne])]

/-- Witness for C7: merging a Google identity into the verified password
account `b@x.com` keeps the password hash and the verified flag, sets the
subject id, overwrites the null name with the provider name, and keeps the
null image. -/
theorem C7_oauth_merge_preserves_witness :
    (mergeSet 9 "gsub" (jsOrNull (some "Provider Name")) (jsOrNull none)
        userVerified).password_hash = userVerified.password_hash ∧
    (mergeSet 9 "gsub" (jsOrNull (some "Provider Name")) (jsOrNull none)
        userVerified).email_verified = userVerified.email_verified ∧
    (mergeSet 9 "gsub" (jsOrNull (some "Provider Name")) (jsOrNull none)
        userVerified).google_id = some "gsub" ∧
    (mergeSet 9 "gsub" (jsOrNull (some "Provider Name")) (jsOrNull none)
        userVerified).image = userVerified.image :=
  ⟨(C7_oauth_merge_preserves dbVerifiedUser 9 11 "b@x.com" "gsub"
      (some "Provider Name") none none userVerified (by decide) rfl).2.2.1,
    (C7_oauth_merge_preserves dbVerifiedUser 9 11 "b@x.com" "gsub"
      (some "Provider Name") none none userVerified (by decide) rfl).2.2.2.1,
    (C7_oauth_merge_preserves dbVerifiedUser 9 11 "b@x.com" "gsub"
      (some "Provider Name") none none userVerified (by decide) rfl).2.2.2.2.1,
    (C7_oauth_merge_preserves dbVerifiedUser 9 11 "b@x.com" "gsub"
      (some "Provider Name") none none userVerified (by
        decide) rfl).2.2.2.2.2.2.2.2.1 rfl⟩

/-- Unfolding characterization of membership in `getUserPermissions`:
sorting and deduplication preserve membership, so a name is effective
exactly when some catalog permission row carries it and is linked, through
`role_permissions`, to a role the user holds. -/
theorem mem_getUserPermissions_iff (db : DB) (userId : Nat) (p : String) :
    p ∈ getUserPermissions db userId ↔
      ∃ perm ∈ db.permissions,
        (db.role_permissions.any (fun rp => rp.2 == perm.id &&
          db.user_roles.any (fun ur => ur.1 == userId && ur.2 == rp.1)))
          = true ∧ perm.name = p := by
  simp only [getUserPermissions]
  rw [(List.perm_insertionSort _ _).mem_iff, List.mem_dedup, List.mem_map]
  constructor
  · rintro ⟨perm, hperm, hname⟩
    have h := List.mem_filter.mp hperm
    exact ⟨perm, h.1, h.2, hname⟩
  · rintro ⟨perm, hmem, hpred, hname⟩
    exact ⟨perm, List.mem_filter.mpr ⟨hmem, hpred⟩, hname⟩

/-- Unfolding characterization of `hasPermission`: it is true exactly when
the name resolves to a first catalog row and the counted join of the user's
role assignments with that row's `role_permissions` links is non-empty. -/
theorem hasPermission_eq_true_iff (db : DB) (userId : Nat) (p : String) :
    hasPermission db userId p = true ↔
      ∃ perm, getPermissionByName db p = some perm ∧
        ∃ ur ∈ db.user_roles, ur.1 = userId ∧
          ∃ rp ∈ db.role_permissions, rp.1 = ur.2 ∧ rp.2 = perm.id := by
  cases hfind : getPermissionByName db p with
  | none =>
    simp only [hasPermission, hfind]
    simp
  | some perm =>
    simp only [hasPermission, hfind]
    rw [decide_eq_true_iff, List.length_pos_iff_exists_mem]
    constructor
    · rintro ⟨x, hx⟩
      obtain ⟨ur, hurf, hxf⟩ := List.mem_flatMap.mp hx
      obtain ⟨hurmem, hur1⟩ := List.mem_filter.mp hurf
      obtain ⟨hxmem, hxp⟩ := List.mem_filter.mp hxf
      simp only [Bool.and_eq_true, beq_iff_eq] at hur1 hxp
      exact ⟨perm, rfl, ur, hurmem, hur1, x, hxmem, hxp.1, hxp.2⟩
    · rintro ⟨perm2, hperm2, ur, hurmem, hur1, rp, hrpmem, hrp1, hrp2⟩
      have hpe : perm2 = perm := (Option.some.inj hperm2).symm
      refine ⟨rp, List.mem_flatMap.mpr ⟨ur, ?_, ?_⟩⟩
      · exact List.mem_filter.mpr ⟨hurmem, by simp [hur1]⟩
      · refine List.mem_filter.mpr ⟨hrpmem, ?_⟩
        rw [hpe] at hrp2
        simp [hrp1, hrp2]

/-- C2: under the catalog invariant that permission names are unique (the
schema's UNIQUE constraint on `permissions.name`), the count-based
`hasPermission` and membership in the enumeration-based
`getUserPermissions` agree for every user id and permission name. -/
theorem C2_hasPermission_agrees_enumeration (db : DB) (userId : Nat)
    (p : String)
    (huniq : ∀ p1 ∈ db.permissions, ∀ p2 ∈ db.permissions,
      p1.name = p2.name → p1.id = p2.id) :
    hasPermission db userId p = true ↔ p ∈ getUserPermissions db userId := by
  rw [hasPermission_eq_true_iff, mem_getUserPermissions_iff]
  constructor
  · rintro ⟨perm, hfind, ur, hurmem, hur1, rp, hrpmem, hrp1, hrp2⟩
    have hfind' : db.permissions.find? (fun q => q.name == p) = some perm :=
      hfind
    have hpmem : perm ∈ db.permissions := List.mem_of_find?_eq_some hfind'
    have hpname : perm.name = p := by
      have h := List.find?_some hfind'
      simpa only [beq_iff_eq] using h
    refine ⟨perm, hpmem, ?_, hpname⟩
    refine List.any_eq_true.mpr ⟨rp, hrpmem, ?_⟩
    have hinner : db.user_roles.any
        (fun ur2 => ur2.1 == userId && ur2.2 == rp.1) = true :=
      List.any_eq_true.mpr ⟨ur, hurmem, by simp [hur1, hrp1.symm]⟩
    simp [hrp2, hinner]
  · rintro ⟨perm, hpmem, hany, hpname⟩
    obtain ⟨rp, hrpmem, hb⟩ := List.any_eq_true.mp hany
    simp only [Bool.and_eq_true, beq_iff_eq] at hb
    obtain ⟨hrp2, hinner⟩ := hb
    obtain ⟨ur, hurmem, hb2⟩ := List.any_eq_true.mp hinner
    simp only [Bool.and_eq_true, beq_iff_eq] at hb2
    obtain ⟨hur1, hur2⟩ := hb2
    obtain ⟨perm2, hfind2⟩ : ∃ q, getPermissionByName db p = some q := by
      cases hfe : getPermissionByName db p with
      | none =>
        unfold getPermissionByName at hfe
        rw [List.find?_eq_none] at hfe
        exact absurd (beq_iff_eq.mpr hpname) (hfe perm hpmem)
      | some q => exact ⟨q, rfl⟩
    have hfind2' : db.permissions.find? (fun q => q.name == p) = some perm2 :=
      hfind2
    have h2mem : perm2 ∈ db.permissions := List.mem_of_find?_eq_some hfind2'
    have h2name : perm2.name = p := by
      have h := List.find?_some hfind2'
      simpa only [beq_iff_eq] using h
    have hid : perm2.id = perm.id :=
      huniq perm2 h2mem perm hpmem (h2name.trans hpname.symm)
    exact ⟨perm2, hfind2, ur, hurmem, hur1, rp, hrpmem, hur2.symm,
      hid ▸ hrp2⟩

/-- Witness for C2 at the concrete RBAC state: user 7 holds `guest`, which
carries `calendar:read`; both query paths affirm it. -/
theorem C2_hasPermission_agrees_enumeration_witness :
    (hasPermission dbRbac 7 "calendar:read" = true ↔
      "calendar:read" ∈ getUserPermissions dbRbac 7) ∧
    hasPermission dbRbac 7 "calendar:read" = true :=
  ⟨C2_hasPermission_agrees_enumeration dbRbac 7 "calendar:read" (by decide),
    by decide⟩

end Webapp
